import Mathlib

/-!
Verification of the duckdb.mbt native binding layer (src/duckdb_native.c)
against its natural-language specification.

The C source is shallowly embedded: each exported `duckdb_mb_*` function that
the claims touch is translated into an executable Lean definition over explicit
state.  Machine integers are modelled as `Int`/`Nat` with explicit `% 2^w`
where the C code truncates; fallible C functions returning `NULL` are modelled
with `Option`; writes to the process-wide error slot are returned explicitly
as an `Option String` component (`none` = the call never invokes the setter).
Functions of the embedded DuckDB engine (an external collaborator, spec section 6)
are modelled at their documented interface and are marked as such.
-/

namespace DuckDBMB

/-! ## Byte-level helpers -/

/-- Little-endian byte serialization of a natural number into `w` bytes
(the value is taken modulo `2^(8*w)`, as a C fixed-width store does). -/
def natLEBytes : Nat → Nat → List UInt8
  | _, 0 => []
  | v, w + 1 => UInt8.ofNat (v % 256) :: natLEBytes (v / 256) w

/-- Bytes of a 32-bit store of an `Int` (two's complement, little-endian),
as produced by a C `int32_t` write. -/
def i32le (v : Int) : List UInt8 :=
  natLEBytes (v % (2 : Int) ^ 32).toNat 4

/-- Bytes of a 64-bit store of an `Int` (two's complement, little-endian),
as produced by a C `int64_t` write. -/
def i64le (v : Int) : List UInt8 :=
  natLEBytes (v % (2 : Int) ^ 64).toNat 8

/-- Value semantics of the C cast `(int32_t)v` applied to an `int64_t` value:
two's-complement truncation to 32 bits. -/
def i32cast (v : Int) : Int :=
  (v + 2 ^ 31) % 2 ^ 32 - 2 ^ 31

/-! ## Process-wide last-error slot

Source: `duckdb_mb_set_error` (src/duckdb_native.c lines 24-40) and
`duckdb_mb_last_error` (lines 240-246).  The slot is the single global
`duckdb_mb_last_error_message`; we model its state as `Option String`
(`none` = NULL pointer).  Allocation is modelled as succeeding. -/

/-- Embedding of `duckdb_mb_set_error`: frees the previous message, stores a
copy of the new one (a NULL message leaves the slot cleared).  The resulting
state does not depend on the previous state. -/
def duckdb_mb_set_error (message : Option String) (state : Option String) :
    Option String :=
  match message, state with
  | none, _ => none
  | some m, _ => some m

/-- Embedding of `duckdb_mb_last_error`: returns the current message as a copy
(empty string for an empty slot) and performs no write — the returned state
component is the input state. -/
def duckdb_mb_last_error (state : Option String) : String × Option String :=
  match state with
  | none => ("", none)
  | some m => (m, some m)

/-! ## Column type classifier and stream creation

Source: `duckdb_mb_is_stream_supported_type` (lines 271-303) and
`duckdb_mb_stream_from_result` (lines 320-353). -/

/-- The `duckdb_type` logical-type tags relevant to the binding: the 26 types
accepted by the streaming classifier plus representatives of the rejected
ones (the C `default:` case). -/
inductive DuckType where
  | boolean | tinyint | smallint | integer | bigint
  | utinyint | usmallint | uinteger | ubigint
  | float | double | varchar | blob
  | date | time | time_ns | time_tz
  | timestamp | timestamp_tz | timestamp_s | timestamp_ms | timestamp_ns
  | interval | hugeint | uhugeint | uuid
  | invalid | sqlnull | decimal | enumT | listT | structT | mapT | arrayT
  | unionT | bit | varint
  deriving DecidableEq, Repr

/-- Embedding of `duckdb_mb_is_stream_supported_type`: the switch over the 26
supported logical types; everything else falls to `default: return false`. -/
def duckdb_mb_is_stream_supported_type : DuckType → Bool
  | .boolean | .tinyint | .smallint | .integer | .bigint
  | .utinyint | .usmallint | .uinteger | .ubigint
  | .float | .double | .varchar | .blob
  | .date | .time | .time_ns | .time_tz
  | .timestamp | .timestamp_tz | .timestamp_s | .timestamp_ms | .timestamp_ns
  | .interval | .hugeint | .uhugeint | .uuid => true
  | _ => false

/-- View of an executed engine result as seen through the external engine API
used by `duckdb_mb_stream_from_result`: `duckdb_column_count` is the length of
`columnTypes` and `duckdb_column_type` indexes into it. -/
structure ResultModel where
  columnTypes : List DuckType
  deriving Repr

/-- The `duckdb_mb_stream` struct: the validated per-column type table and the
stored column count (the engine result pointer is implicit). -/
structure StreamModel where
  column_types : List DuckType
  column_count : Int
  deriving Repr

/-- The validation loop of `duckdb_mb_stream_from_result` (lines 333-341):
walks the columns in order, aborts with failure at an unsupported type, and
otherwise returns the collected table. -/
def checkColumnTypes : List DuckType → Option (List DuckType)
  | [] => some []
  | t :: rest =>
    if duckdb_mb_is_stream_supported_type t then
      match checkColumnTypes rest with
      | none => none
      | some ts => some (t :: ts)
    else none

/-- Embedding of `duckdb_mb_stream_from_result`: a NULL result fails; with a
positive column count every column type is validated (all-or-nothing — on an
unsupported type the partially built table is freed and no stream is
produced); a stream with `column_count <= 0` gets an empty table (the C code
leaves `column_types` NULL). -/
def duckdb_mb_stream_from_result (result : Option ResultModel) :
    Option StreamModel :=
  match result with
  | none => none
  | some r =>
    let cc : Int := Int.ofNat r.columnTypes.length
    if 0 < cc then
      match checkColumnTypes r.columnTypes with
      | none => none
      | some ts => some ⟨ts, cc⟩
    else
      some ⟨[], cc⟩

/-! ## Chunk and vector model

Source: `duckdb_mb_chunk_is_null` (lines 516-531), `duckdb_mb_chunk_value`
(lines 533-663), `duckdb_mb_chunk_row_count` (lines 502-507). -/

/-- The inlined arm of the engine's `duckdb_string_t` union: a declared length
and the fixed 12-byte field.  A `none` entry is a byte the writer left
uninitialized (the C code only writes the first `length` bytes plus an
optional terminator). -/
structure StrInline where
  len : Nat
  bytes : List (Option UInt8)
  deriving DecidableEq, Repr

/-- The out-of-line arm of `duckdb_string_t`: declared length, the 4-byte
prefix, and the pointed-to byte sequence. -/
structure StrPtr where
  len : Nat
  pfx : List UInt8
  ptrBytes : List UInt8
  deriving DecidableEq, Repr

/-- Tagged view of the engine's `duckdb_string_t` union (spec section 3: the two
layouts alias the same storage; which arm is live is decided by the length). -/
inductive StringT where
  | inlineStr : StrInline → StringT
  | pointerStr : StrPtr → StringT
  deriving DecidableEq, Repr

/-- The declared length of a `duckdb_string_t` (external
`duckdb_string_t_length`). -/
def StringT.tLength : StringT → Nat
  | .inlineStr i => i.len
  | .pointerStr p => p.len

/-- The data location of a `duckdb_string_t` (external `duckdb_string_t_data`):
the inline field for the inlined arm, the pointed-to bytes otherwise;
uninitialized inline bytes read as junk, modelled as 0. -/
def StringT.dataBytes : StringT → List UInt8
  | .inlineStr i => i.bytes.map (fun o => o.getD 0)
  | .pointerStr p => p.ptrBytes

/-- Contents of one data slot of a column vector, one variant per slot kind the
type dispatch of `duckdb_mb_chunk_value` reads through a cast.  Floats are
carried as raw bit patterns (this layer never computes on them). -/
inductive Slot where
  | sBool : Bool → Slot
  | sI8 : Int → Slot
  | sI16 : Int → Slot
  | sI32 : Int → Slot
  | sI64 : Int → Slot
  | sU8 : Nat → Slot
  | sU16 : Nat → Slot
  | sU32 : Nat → Slot
  | sU64 : Nat → Slot
  | sF32 : Nat → Slot
  | sF64 : Nat → Slot
  | sStr : StringT → Slot
  | sDate : Int → Slot
  | sTime : Int → Slot
  | sTimeNs : Int → Slot
  | sTimeTz : Nat → Slot
  | sTimestamp : Int → Slot
  | sTimestampS : Int → Slot
  | sTimestampMs : Int → Slot
  | sTimestampNs : Int → Slot
  | sInterval : Int → Int → Int → Slot
  | sHugeint : Nat → Int → Slot
  | sUhugeint : Nat → Nat → Slot
  deriving DecidableEq, Repr

/-- Reading a slot as `bool` (the C cast `((bool *)data)[row]`); a slot of a
different kind would be a reinterpretation the claims never exercise, modelled
by a junk default. -/
def Slot.asBool : Slot → Bool
  | .sBool b => b
  | _ => false

/-- Reading a slot as `int8_t`. -/
def Slot.asI8 : Slot → Int
  | .sI8 v => v
  | _ => 0

/-- Reading a slot as `int16_t`. -/
def Slot.asI16 : Slot → Int
  | .sI16 v => v
  | _ => 0

/-- Reading a slot as `int32_t`. -/
def Slot.asI32 : Slot → Int
  | .sI32 v => v
  | _ => 0

/-- Reading a slot as `int64_t`. -/
def Slot.asI64 : Slot → Int
  | .sI64 v => v
  | _ => 0

/-- Reading a slot as `uint8_t`. -/
def Slot.asU8 : Slot → Nat
  | .sU8 v => v
  | _ => 0

/-- Reading a slot as `uint16_t`. -/
def Slot.asU16 : Slot → Nat
  | .sU16 v => v
  | _ => 0

/-- Reading a slot as `uint32_t`. -/
def Slot.asU32 : Slot → Nat
  | .sU32 v => v
  | _ => 0

/-- Reading a slot as `uint64_t`. -/
def Slot.asU64 : Slot → Nat
  | .sU64 v => v
  | _ => 0

/-- Reading a slot as `float` (bit pattern). -/
def Slot.asF32 : Slot → Nat
  | .sF32 v => v
  | _ => 0

/-- Reading a slot as `double` (bit pattern). -/
def Slot.asF64 : Slot → Nat
  | .sF64 v => v
  | _ => 0

/-- Reading a slot as `duckdb_string_t`. -/
def Slot.asStr : Slot → StringT
  | .sStr s => s
  | _ => .inlineStr ⟨0, []⟩

/-- Reading a slot as `duckdb_date` (days as `int32_t`). -/
def Slot.asDate : Slot → Int
  | .sDate v => v
  | _ => 0

/-- Reading a slot as `duckdb_time` (micros as `int64_t`). -/
def Slot.asTime : Slot → Int
  | .sTime v => v
  | _ => 0

/-- Reading a slot as `duckdb_time_ns`. -/
def Slot.asTimeNs : Slot → Int
  | .sTimeNs v => v
  | _ => 0

/-- Reading a slot as `duckdb_time_tz` (packed `uint64_t` bits). -/
def Slot.asTimeTz : Slot → Nat
  | .sTimeTz v => v
  | _ => 0

/-- Reading a slot as `duckdb_timestamp` (micros; shared by the TIMESTAMP and
TIMESTAMP_TZ cases, both of which read a `duckdb_timestamp`). -/
def Slot.asTimestamp : Slot → Int
  | .sTimestamp v => v
  | _ => 0

/-- Reading a slot as `duckdb_timestamp_s`. -/
def Slot.asTimestampS : Slot → Int
  | .sTimestampS v => v
  | _ => 0

/-- Reading a slot as `duckdb_timestamp_ms`. -/
def Slot.asTimestampMs : Slot → Int
  | .sTimestampMs v => v
  | _ => 0

/-- Reading a slot as `duckdb_timestamp_ns`. -/
def Slot.asTimestampNs : Slot → Int
  | .sTimestampNs v => v
  | _ => 0

/-- Reading a slot as `duckdb_interval` (months, days, micros). -/
def Slot.asInterval : Slot → Int × Int × Int
  | .sInterval m d u => (m, d, u)
  | _ => (0, 0, 0)

/-- Reading a slot as `duckdb_hugeint` (lower `uint64_t`, upper `int64_t`). -/
def Slot.asHugeint : Slot → Nat × Int
  | .sHugeint lo hi => (lo, hi)
  | _ => (0, 0)

/-- Reading a slot as `duckdb_uhugeint` (shared by the UHUGEINT and UUID
cases). -/
def Slot.asUhugeint : Slot → Nat × Nat
  | .sUhugeint lo hi => (lo, hi)
  | _ => (0, 0)

/-- The tagged engine value produced by the external `duckdb_create_*`
constructors that `duckdb_mb_chunk_value` calls, one variant per constructor
used by the type dispatch. -/
inductive DuckValue where
  | vBool : Bool → DuckValue
  | vInt8 : Int → DuckValue
  | vInt16 : Int → DuckValue
  | vInt32 : Int → DuckValue
  | vInt64 : Int → DuckValue
  | vUInt8 : Nat → DuckValue
  | vUInt16 : Nat → DuckValue
  | vUInt32 : Nat → DuckValue
  | vUInt64 : Nat → DuckValue
  | vFloat : Nat → DuckValue
  | vDouble : Nat → DuckValue
  | vVarchar : List UInt8 → DuckValue
  | vBlob : List UInt8 → DuckValue
  | vDate : Int → DuckValue
  | vTime : Int → DuckValue
  | vTimeNs : Int → DuckValue
  | vTimeTz : Nat → DuckValue
  | vTimestamp : Int → DuckValue
  | vTimestampTz : Int → DuckValue
  | vTimestampS : Int → DuckValue
  | vTimestampMs : Int → DuckValue
  | vTimestampNs : Int → DuckValue
  | vInterval : Int → Int → Int → DuckValue
  | vHugeint : Nat → Int → DuckValue
  | vUhugeint : Nat → Nat → DuckValue
  | vUuid : Nat → Nat → DuckValue
  deriving DecidableEq, Repr

/-- Modelled from the spec: stand-in for the embedded engine's
`duckdb_value_to_string` rendering (external collaborator, spec section 6).  The
spec does not pin the engine's text format, so any injective concrete
encoding is faithful at this interface; we tag each variant and serialize its
components little-endian. -/
def duckdb_value_to_string : DuckValue → List UInt8
  | .vBool b => [1, if b then 1 else 0]
  | .vInt8 v => 2 :: i64le v
  | .vInt16 v => 3 :: i64le v
  | .vInt32 v => 4 :: i64le v
  | .vInt64 v => 5 :: i64le v
  | .vUInt8 v => 6 :: natLEBytes v 8
  | .vUInt16 v => 7 :: natLEBytes v 8
  | .vUInt32 v => 8 :: natLEBytes v 8
  | .vUInt64 v => 9 :: natLEBytes v 8
  | .vFloat v => 10 :: natLEBytes v 4
  | .vDouble v => 11 :: natLEBytes v 8
  | .vVarchar s => 12 :: (natLEBytes s.length 4 ++ s)
  | .vBlob s => 13 :: (natLEBytes s.length 4 ++ s)
  | .vDate v => 14 :: i32le v
  | .vTime v => 15 :: i64le v
  | .vTimeNs v => 16 :: i64le v
  | .vTimeTz v => 17 :: natLEBytes v 8
  | .vTimestamp v => 18 :: i64le v
  | .vTimestampTz v => 19 :: i64le v
  | .vTimestampS v => 20 :: i64le v
  | .vTimestampMs v => 21 :: i64le v
  | .vTimestampNs v => 22 :: i64le v
  | .vInterval m d u => 23 :: (i32le m ++ i32le d ++ i64le u)
  | .vHugeint lo hi => 24 :: (natLEBytes lo 8 ++ i64le hi)
  | .vUhugeint lo hi => 25 :: (natLEBytes lo 8 ++ natLEBytes hi 8)
  | .vUuid lo hi => 26 :: (natLEBytes lo 8 ++ natLEBytes hi 8)

/-- Embedding of `duckdb_mb_value_to_bytes` (lines 305-318): renders the engine
value to a string and copies it into a fresh byte buffer (value creation and
allocation modelled as succeeding). -/
def duckdb_mb_value_to_bytes (v : DuckValue) : List UInt8 :=
  duckdb_value_to_string v

/-- One column's raw memory inside an engine data chunk: the validity bitmap
(external `duckdb_vector_get_validity`; `none` = NULL pointer = all rows
valid; `some f` with `f row = true` meaning the row is valid) and the typed
data array (external `duckdb_vector_get_data`; `none` = NULL pointer). -/
structure ColumnVec where
  validity : Option (Nat → Bool)
  data : Option (Nat → Slot)

/-- The `duckdb_mb_chunk` handle: the engine chunk's row count
(`duckdb_data_chunk_get_size`), its column vectors, and the back-reference to
the owning stream (whose type table drives decoding). -/
structure Chunk where
  size : Nat
  columns : List ColumnVec
  stream : StreamModel

/-- External `duckdb_data_chunk_get_vector`: vector of column `col` of the
chunk (an out-of-range column, which the C guards exclude, yields an empty
vector). -/
def chunkGetVector (c : Chunk) (col : Int) : ColumnVec :=
  c.columns.getD col.toNat ⟨none, none⟩

/-- Embedding of `duckdb_mb_chunk_row_count` (lines 502-507). -/
def duckdb_mb_chunk_row_count (chunk : Option Chunk) : Int :=
  match chunk with
  | none => 0
  | some c => Int.ofNat c.size

/-- Embedding of `duckdb_mb_chunk_is_null` (lines 516-531): a NULL handle or
an out-of-range column or a negative row answers 1; a NULL validity bitmap
answers 0 (all valid); otherwise the validity bit decides.  The row index is
not checked against the chunk's row count. -/
def duckdb_mb_chunk_is_null (chunk : Option Chunk) (col row : Int) : Int :=
  match chunk with
  | none => 1
  | some c =>
    if col < 0 ∨ c.stream.column_count ≤ col ∨ row < 0 then 1
    else
      match (chunkGetVector c col).validity with
      | none => 0
      | some valid => if valid row.toNat then 0 else 1

/-- Embedding of `duckdb_mb_chunk_value` (lines 533-663).  Returns the produced
bytes together with the message this call writes to the error slot (`none` =
no write).  The guard admits any non-negative row (no row-count bound) and the
dispatch reads the data slot without consulting the validity bitmap; only the
`default:` arm of the switch writes the error slot. -/
def duckdb_mb_chunk_value (chunk : Option Chunk) (col row : Int) :
    List UInt8 × Option String :=
  match chunk with
  | none => ([], none)
  | some c =>
    if col < 0 ∨ c.stream.column_count ≤ col ∨ row < 0 then ([], none)
    else
      match (chunkGetVector c col).data with
      | none => ([], none)
      | some data =>
        let slot := data row.toNat
        match c.stream.column_types.getD col.toNat .invalid with
        | .boolean => (duckdb_mb_value_to_bytes (.vBool slot.asBool), none)
        | .tinyint => (duckdb_mb_value_to_bytes (.vInt8 slot.asI8), none)
        | .smallint => (duckdb_mb_value_to_bytes (.vInt16 slot.asI16), none)
        | .integer => (duckdb_mb_value_to_bytes (.vInt32 slot.asI32), none)
        | .bigint => (duckdb_mb_value_to_bytes (.vInt64 slot.asI64), none)
        | .utinyint => (duckdb_mb_value_to_bytes (.vUInt8 slot.asU8), none)
        | .usmallint => (duckdb_mb_value_to_bytes (.vUInt16 slot.asU16), none)
        | .uinteger => (duckdb_mb_value_to_bytes (.vUInt32 slot.asU32), none)
        | .ubigint => (duckdb_mb_value_to_bytes (.vUInt64 slot.asU64), none)
        | .float => (duckdb_mb_value_to_bytes (.vFloat slot.asF32), none)
        | .double => (duckdb_mb_value_to_bytes (.vDouble slot.asF64), none)
        | .varchar =>
          let st := slot.asStr
          (duckdb_mb_value_to_bytes (.vVarchar (st.dataBytes.take st.tLength)), none)
        | .blob =>
          let st := slot.asStr
          (duckdb_mb_value_to_bytes (.vBlob (st.dataBytes.take st.tLength)), none)
        | .date => (duckdb_mb_value_to_bytes (.vDate slot.asDate), none)
        | .time => (duckdb_mb_value_to_bytes (.vTime slot.asTime), none)
        | .time_ns => (duckdb_mb_value_to_bytes (.vTimeNs slot.asTimeNs), none)
        | .time_tz => (duckdb_mb_value_to_bytes (.vTimeTz slot.asTimeTz), none)
        | .timestamp => (duckdb_mb_value_to_bytes (.vTimestamp slot.asTimestamp), none)
        | .timestamp_tz => (duckdb_mb_value_to_bytes (.vTimestampTz slot.asTimestamp), none)
        | .timestamp_s => (duckdb_mb_value_to_bytes (.vTimestampS slot.asTimestampS), none)
        | .timestamp_ms => (duckdb_mb_value_to_bytes (.vTimestampMs slot.asTimestampMs), none)
        | .timestamp_ns => (duckdb_mb_value_to_bytes (.vTimestampNs slot.asTimestampNs), none)
        | .interval =>
          let iv := slot.asInterval
          (duckdb_mb_value_to_bytes (.vInterval iv.1 iv.2.1 iv.2.2), none)
        | .hugeint =>
          let h := slot.asHugeint
          (duckdb_mb_value_to_bytes (.vHugeint h.1 h.2), none)
        | .uhugeint =>
          let h := slot.asUhugeint
          (duckdb_mb_value_to_bytes (.vUhugeint h.1 h.2), none)
        | .uuid =>
          let h := slot.asUhugeint
          (duckdb_mb_value_to_bytes (.vUuid h.1 h.2), none)
        | _ => ([], some "unsupported streaming type")

/-! ## Stream fetch

Source: `duckdb_mb_stream_fetch_chunk` (lines 466-486). -/

/-- Contents of one engine data chunk as handed out by the external
`duckdb_fetch_chunk`. -/
structure EngineChunkData where
  size : Nat
  columns : List ColumnVec

/-- State of an executed streaming engine result: the chunks not yet fetched
and the message `duckdb_result_error` reports (`""` = no error, covering both
a NULL and an empty message, which the C code treats alike). -/
structure EngineResultState where
  pending : List EngineChunkData
  errorMsg : String

/-- Modelled from the spec: the external engine's `duckdb_fetch_chunk` (spec
section 6, `fetch_chunk(Result) -> Chunk|EndOfStream|Error`): hands out the next
chunk and advances the result; once exhausted it keeps returning NULL with the
state unchanged. -/
def duckdb_fetch_chunk (res : EngineResultState) :
    Option EngineChunkData × EngineResultState :=
  match res.pending with
  | [] => (none, res)
  | c :: rest => (some c, ⟨rest, res.errorMsg⟩)

/-- Embedding of `duckdb_mb_stream_fetch_chunk` (lines 466-486).  Returns the
produced chunk handle, the advanced engine result state, and the message this
call writes to the error slot (`none` = no write).  A NULL chunk from the
engine — which is how the engine signals exhaustion — is routed through the
error path: the engine's own error message is forwarded when non-empty,
otherwise the generic "duckdb_fetch_chunk failed" is written, and NULL is
returned either way.  Allocation of the chunk handle is modelled as
succeeding. -/
def duckdb_mb_stream_fetch_chunk (stream : Option StreamModel)
    (res : EngineResultState) :
    Option Chunk × EngineResultState × Option String :=
  match stream with
  | none => (none, res, some "stream is null")
  | some s =>
    match duckdb_fetch_chunk res with
    | (none, res2) =>
      (none, res2,
        some (if res2.errorMsg = "" then "duckdb_fetch_chunk failed"
              else res2.errorMsg))
    | (some c, res2) => (some ⟨c.size, c.columns, s⟩, res2, none)

/-! ## Arrow-style bulk column extraction

Source: `duckdb_mb_arrow_get_column_int32` (lines 2416-2447),
`duckdb_mb_arrow_get_column_int64` (lines 2449-2479),
`duckdb_mb_arrow_get_column_string` (lines 2513-2571),
`duckdb_mb_arrow_get_column_int32_nullable` (lines 2629-2666),
`duckdb_mb_arrow_get_column_int64_nullable` (lines 2668-2704). -/

/-- View of a fully materialized engine result (`duckdb_mb_arrow_result`)
through the external per-value engine API the bulk getters call:
`duckdb_value_is_null`, `duckdb_value_int64` and `duckdb_value_varchar`
(the latter's bytes for non-null rows; allocation modelled as succeeding). -/
structure ArrowResultModel where
  column_count : Int
  row_count : Int
  isNull : Int → Int → Bool
  int64At : Int → Int → Int
  varcharAt : Int → Int → List UInt8

/-- The C `strlen`: number of bytes before the first NUL. -/
def cStrLen : List UInt8 → Nat
  | [] => 0
  | b :: rest => if b = 0 then 0 else cStrLen rest + 1

/-- The bytes a `memcpy` of `strlen` bytes copies: everything before the first
NUL. -/
def cStrTake : List UInt8 → List UInt8
  | [] => []
  | b :: rest => if b = 0 then [] else b :: cStrTake rest

/-- The per-row string values the string getter materializes in its first pass
(`strings[i]`): NULL for a null row, the row's varchar otherwise. -/
def stringColumnRows (r : ArrowResultModel) (col : Int) :
    List (Option (List UInt8)) :=
  (List.range r.row_count.toNat).map
    (fun i => if r.isNull col (Int.ofNat i) then none
              else some (r.varcharAt col (Int.ofNat i)))

/-- The total payload length the string getter's first pass accumulates:
`strlen + 1` per non-null row and — the source adds nothing for a NULL
entry — 0 per null row. -/
def stringTotalLen : List (Option (List UInt8)) → Nat
  | [] => 0
  | none :: rest => stringTotalLen rest
  | some s :: rest => cStrLen s + 1 + stringTotalLen rest

/-- The payload bytes the string getter's second pass writes: each non-null
row's bytes up to the first NUL followed by a terminator, a lone terminator
for a NULL entry.  (For null rows the C second pass thus writes one byte the
first pass did not budget for; the claims under verification only concern
all-non-null columns, where the two passes agree.) -/
def stringPayload : List (Option (List UInt8)) → List UInt8
  | [] => []
  | none :: rest => 0 :: stringPayload rest
  | some s :: rest => (cStrTake s ++ [0]) ++ stringPayload rest

/-- Embedding of `duckdb_mb_arrow_get_column_string`: a NULL handle, an
out-of-range column or a non-positive row count yield the empty buffer;
otherwise the layout is `[i32 count][i32 total_bytes][payload]` with the
header fields stored as 32-bit truncations. -/
def duckdb_mb_arrow_get_column_string (r : Option ArrowResultModel)
    (col_idx : Int) : List UInt8 :=
  match r with
  | none => []
  | some ar =>
    if col_idx < 0 ∨ ar.column_count ≤ col_idx ∨ ar.row_count ≤ 0 then []
    else
      let rows := stringColumnRows ar col_idx
      i32le ar.row_count ++ i32le (Int.ofNat (stringTotalLen rows)) ++
        stringPayload rows

/-- Helper loop of the consumer-side re-splitting scan named by the spec
(section 4.4: the consumer re-splits the dense string payload by scanning for
NUL terminators): accumulates the current substring (reversed) and emits it at
each terminator. -/
def splitNulGo : List UInt8 → List UInt8 → List (List UInt8)
  | _, [] => []
  | acc, b :: rest =>
    if b = 0 then acc.reverse :: splitNulGo [] rest
    else splitNulGo (b :: acc) rest

/-- The NUL-terminator scan over a dense string payload: the list of
terminator-delimited substrings. -/
def splitNul (l : List UInt8) : List (List UInt8) :=
  splitNulGo [] l

/-- The int32 value array the dense int32 getter writes: 0 for a null row,
otherwise the row fetched through `duckdb_value_int64` and narrowed by the
C cast `(int32_t)val`. -/
def int32DenseValues (r : ArrowResultModel) (col : Int) : List Int :=
  (List.range r.row_count.toNat).map
    (fun i => if r.isNull col (Int.ofNat i) then 0
              else i32cast (r.int64At col (Int.ofNat i)))

/-- Embedding of `duckdb_mb_arrow_get_column_int32`: guard as for the string
getter, then `[i32 count][count × i32 value]`. -/
def duckdb_mb_arrow_get_column_int32 (r : Option ArrowResultModel)
    (col_idx : Int) : List UInt8 :=
  match r with
  | none => []
  | some ar =>
    if col_idx < 0 ∨ ar.column_count ≤ col_idx ∨ ar.row_count ≤ 0 then []
    else
      i32le ar.row_count ++ (int32DenseValues ar col_idx).flatMap i32le

/-- The int64 value array the dense int64 getter writes: 0 for a null row,
otherwise the row's `duckdb_value_int64` value stored full-width. -/
def int64DenseValues (r : ArrowResultModel) (col : Int) : List Int :=
  (List.range r.row_count.toNat).map
    (fun i => if r.isNull col (Int.ofNat i) then 0
              else r.int64At col (Int.ofNat i))

/-- Embedding of `duckdb_mb_arrow_get_column_int64`: guard as above, then
`[i32 count][count × i64 value]`. -/
def duckdb_mb_arrow_get_column_int64 (r : Option ArrowResultModel)
    (col_idx : Int) : List UInt8 :=
  match r with
  | none => []
  | some ar =>
    if col_idx < 0 ∨ ar.column_count ≤ col_idx ∨ ar.row_count ≤ 0 then []
    else
      i32le ar.row_count ++ (int64DenseValues ar col_idx).flatMap i64le

/-- The trailing validity byte array both nullable getters compute: 0 for a
null row, 1 otherwise (both source loops use this same expression). -/
def nullableValidity (r : ArrowResultModel) (col : Int) : List UInt8 :=
  (List.range r.row_count.toNat).map
    (fun i => if r.isNull col (Int.ofNat i) then 0 else 1)

/-- Embedding of `duckdb_mb_arrow_get_column_int32_nullable` (lines
2629-2666): guard as above, then `[i32 count][count × i32 value]
[count × u8 validity]`, with a zero placeholder value for every null row. -/
def duckdb_mb_arrow_get_column_int32_nullable (r : Option ArrowResultModel)
    (col_idx : Int) : List UInt8 :=
  match r with
  | none => []
  | some ar =>
    if col_idx < 0 ∨ ar.column_count ≤ col_idx ∨ ar.row_count ≤ 0 then []
    else
      i32le ar.row_count ++ (int32DenseValues ar col_idx).flatMap i32le ++
        nullableValidity ar col_idx

/-- Embedding of `duckdb_mb_arrow_get_column_int64_nullable` (lines
2668-2704): same with 64-bit value slots. -/
def duckdb_mb_arrow_get_column_int64_nullable (r : Option ArrowResultModel)
    (col_idx : Int) : List UInt8 :=
  match r with
  | none => []
  | some ar =>
    if col_idx < 0 ∨ ar.column_count ≤ col_idx ∨ ar.row_count ≤ 0 then []
    else
      i32le ar.row_count ++ (int64DenseValues ar col_idx).flatMap i64le ++
        nullableValidity ar col_idx

/-! ## Native vector writer

Source: the string-writing loop body of `duckdb_mb_append_list_varchar_chunk`
(lines 2210-2240). -/

/-- The 12-byte inline field as the writer leaves it for a source string `s`
with `s.length ≤ 12`: byte `j` holds `s[j]` for `j < length`, a NUL
terminator directly after the payload when `length < 12`, and stays
uninitialized (`none`) beyond that. -/
def inlineField (s : List UInt8) : List (Option UInt8) :=
  (List.range 12).map
    (fun j => if h : j < s.length then some (s.get ⟨j, h⟩)
              else if j = s.length then some 0
              else none)

/-- Embedding of the per-string body of the writer loop (lines 2211-2239):
a string of length at most 12 is stored inlined byte-for-byte with its
declared length; a longer string is stored out-of-line with its declared
length, the prefix of the first `min(length, 4)` bytes, and a pointer to the
caller's bytes (no copy); a NULL entry becomes an inlined empty string. -/
def writeStringSlot : Option (List UInt8) → StringT
  | some s =>
    if s.length ≤ 12 then
      .inlineStr ⟨s.length, inlineField s⟩
    else
      .pointerStr
        ⟨s.length, s.take (if s.length < 4 then s.length else 4), s⟩
  | none => .inlineStr ⟨0, inlineField []⟩

/-- The writer loop over the whole host array: one `duckdb_string_t` per
entry, written into the child vector in order. -/
def appendListVarcharSlots (values : List (Option (List UInt8))) :
    List StringT :=
  values.map writeStringSlot

/-! ## Shared helper lemmas -/

theorem getD_map_range {α : Type} (n : Nat) (f : Nat → α) (i : Nat) (d : α)
    (h : i < n) : ((List.range n).map f).getD i d = f i := by
  have hlen : i < ((List.range n).map f).length := by simpa using h
  rw [List.getD_eq_getElem _ _ hlen]
  simp

theorem checkColumnTypes_all (ts : List DuckType)
    (h : ∀ t ∈ ts, duckdb_mb_is_stream_supported_type t = true) :
    checkColumnTypes ts = some ts := by
  induction ts with
  | nil => rfl
  | cons t rest ih =>
    have ht : duckdb_mb_is_stream_supported_type t = true :=
      h t (List.mem_cons_self t rest)
    have hrest := ih (fun u hu => h u (List.mem_cons_of_mem t hu))
    simp [checkColumnTypes, ht, hrest]

theorem checkColumnTypes_none (ts : List DuckType)
    (h : ∃ t ∈ ts, duckdb_mb_is_stream_supported_type t = false) :
    checkColumnTypes ts = none := by
  induction ts with
  | nil => obtain ⟨t, ht, _⟩ := h; exact absurd ht (List.not_mem_nil t)
  | cons t rest ih =>
    by_cases hsup : duckdb_mb_is_stream_supported_type t = true
    · obtain ⟨u, hu, hbad⟩ := h
      rcases List.mem_cons.mp hu with hEq | hMem
      · subst hEq; rw [hsup] at hbad; exact absurd hbad (by simp)
      · have := ih ⟨u, hMem, hbad⟩
        simp [checkColumnTypes, hsup, this]
    · have hfalse : duckdb_mb_is_stream_supported_type t = false := by
        simpa using hsup
      simp [checkColumnTypes, hfalse]

/-! ## Claim theorems -/

/-- C9: the process-wide last-error slot is single-slot and last-write-wins:
after a failing call stores message `m`, querying the slot returns exactly
`m`; querying never modifies the slot (the returned state equals the input
state); and a store overwrites whatever was there before, independently of the
previous contents. -/
theorem C9_last_error_slot :
    (∀ (m : String) (s : Option String),
        (duckdb_mb_last_error (duckdb_mb_set_error (some m) s)).1 = m) ∧
    (∀ s : Option String, (duckdb_mb_last_error s).2 = s) ∧
    (∀ (m : String) (s1 s2 : Option String),
        duckdb_mb_set_error (some m) s1 = duckdb_mb_set_error (some m) s2) := by
  refine ⟨fun m s => rfl, fun s => ?_, fun m s1 s2 => rfl⟩
  cases s <;> rfl

/-- C7: stream creation is all-or-nothing over the column-type table: a result
containing any unsupported column type produces no stream (and hence no
partial table), while a result whose columns are all supported produces a
stream whose type table is exactly the result's column types — one validated
entry per column. -/
theorem C7_stream_type_table (r : ResultModel) :
    ((∃ t ∈ r.columnTypes, duckdb_mb_is_stream_supported_type t = false) →
        duckdb_mb_stream_from_result (some r) = none) ∧
    ((∀ t ∈ r.columnTypes, duckdb_mb_is_stream_supported_type t = true) →
        duckdb_mb_stream_from_result (some r) =
          some ⟨r.columnTypes, Int.ofNat r.columnTypes.length⟩) := by
  constructor
  · intro h
    have hne : r.columnTypes ≠ [] := by
      obtain ⟨t, ht, _⟩ := h
      intro hnil
      rw [hnil] at ht
      exact absurd ht (List.not_mem_nil t)
    have hpos : 0 < Int.ofNat r.columnTypes.length :=
      Int.ofNat_pos.mpr (List.length_pos.mpr hne)
    simp [duckdb_mb_stream_from_result, hpos, hne,
      checkColumnTypes_none _ h]
  · intro h
    by_cases hnil : r.columnTypes = []
    · simp [duckdb_mb_stream_from_result, hnil]
    · have hpos : 0 < Int.ofNat r.columnTypes.length :=
        Int.ofNat_pos.mpr (List.length_pos.mpr hnil)
      simp [duckdb_mb_stream_from_result, hpos, hnil,
        checkColumnTypes_all _ h]

/-- C7 witness: a two-column result with a DECIMAL column is rejected whole; a
two-column INT/VARCHAR result yields a stream whose table lists exactly those
two validated types. -/
theorem C7_witness :
    duckdb_mb_stream_from_result (some ⟨[DuckType.integer, DuckType.decimal]⟩) =
      none ∧
    duckdb_mb_stream_from_result (some ⟨[DuckType.integer, DuckType.varchar]⟩) =
      some ⟨[DuckType.integer, DuckType.varchar], 2⟩ := by
  constructor
  · exact (C7_stream_type_table ⟨[DuckType.integer, DuckType.decimal]⟩).1
      ⟨DuckType.decimal, by decide, by decide⟩
  · exact (C7_stream_type_table ⟨[DuckType.integer, DuckType.varchar]⟩).2
      (by decide)

/-- C3: refutation of "fetch after end-of-stream does not report an error".
On a stream whose engine result is exhausted and reports no error, the fetch
returns a NULL chunk and writes the generic failure message
"duckdb_fetch_chunk failed" into the process-wide error slot — the same
observable outcome as a failed fetch, so end-of-stream is reported through
the error path, not as a distinguishable non-error signal. -/
theorem C3_counterexample :
    duckdb_mb_stream_fetch_chunk (some ⟨[], 0⟩) ⟨[], ""⟩ =
      (none, ⟨[], ""⟩, some "duckdb_fetch_chunk failed") ∧
    (some "duckdb_fetch_chunk failed" : Option String) ≠ none := by
  exact ⟨rfl, by decide⟩

/-- C3 amended: once the engine result is exhausted, every fetch again returns
a NULL chunk and leaves the result exhausted — the terminal state is
idempotent and the stream never restarts — but each such call writes the
last-error slot (the engine's message verbatim when non-empty, otherwise
"duckdb_fetch_chunk failed"); a NULL chunk is the shared return for both
end-of-stream and fetch errors, distinguishable only by the message text. -/
theorem C3_amended (s : StreamModel) (res : EngineResultState)
    (h : res.pending = []) :
    duckdb_mb_stream_fetch_chunk (some s) res =
      (none, res,
        some (if res.errorMsg = "" then "duckdb_fetch_chunk failed"
              else res.errorMsg)) ∧
    duckdb_mb_stream_fetch_chunk (some s)
        (duckdb_mb_stream_fetch_chunk (some s) res).2.1 =
      duckdb_mb_stream_fetch_chunk (some s) res := by
  obtain ⟨p, e⟩ := res
  subst h
  exact ⟨rfl, rfl⟩

/-- C3 amended witness: the exhausted-stream equation at a concrete stream
with a pending engine error message. -/
theorem C3_witness :
    (⟨[], "boom"⟩ : EngineResultState).pending = [] ∧
    duckdb_mb_stream_fetch_chunk (some ⟨[], 0⟩) ⟨[], "boom"⟩ =
      (none, ⟨[], "boom"⟩, some "boom") := by
  refine ⟨rfl, ?_⟩
  have h := (C3_amended ⟨[], 0⟩ ⟨[], "boom"⟩ rfl).1
  simpa using h

/-- C8: refutation of "out-of-range column_index is an error condition
distinguishable from the empty buffer returned for a zero row count".  An
out-of-range column index and a zero row count produce the identical empty
buffer, and neither path of the bulk getters ever writes the error slot (the
source functions contain no error-setter call), so the caller cannot
distinguish the two outcomes. -/
theorem C8_counterexample :
    duckdb_mb_arrow_get_column_int64
        (some ⟨1, 2, fun _ _ => false, fun _ _ => 0, fun _ _ => []⟩) 5 =
      duckdb_mb_arrow_get_column_int64
        (some ⟨1, 0, fun _ _ => false, fun _ _ => 0, fun _ _ => []⟩) 0 ∧
    duckdb_mb_arrow_get_column_int64
        (some ⟨1, 2, fun _ _ => false, fun _ _ => 0, fun _ _ => []⟩) 5 = [] ∧
    duckdb_mb_arrow_get_column_int32
        (some ⟨1, 2, fun _ _ => false, fun _ _ => 0, fun _ _ => []⟩) 5 =
      duckdb_mb_arrow_get_column_int32
        (some ⟨1, 0, fun _ _ => false, fun _ _ => 0, fun _ _ => []⟩) 0 := by
  exact ⟨rfl, rfl, rfl⟩

/-- C8 amended: for the bulk column getters, an out-of-range `column_index`
and a non-positive row count are funnelled through one guard: both return the
same empty zero-length buffer, no error is recorded, and the two outcomes are
not distinguishable by the caller. -/
theorem C8_amended (r : ArrowResultModel) (col : Int)
    (h : col < 0 ∨ r.column_count ≤ col ∨ r.row_count ≤ 0) :
    duckdb_mb_arrow_get_column_int64 (some r) col = [] ∧
    duckdb_mb_arrow_get_column_int32 (some r) col = [] := by
  constructor
  · simp only [duckdb_mb_arrow_get_column_int64]
    rw [if_pos h]
  · simp only [duckdb_mb_arrow_get_column_int32]
    rw [if_pos h]

/-- C8 amended witness: the guard equation at a one-column, three-row result
queried at column 7. -/
theorem C8_witness :
    ((7 : Int) < 0 ∨
        (⟨1, 3, fun _ _ => false, fun _ _ => 0, fun _ _ => []⟩ :
          ArrowResultModel).column_count ≤ 7 ∨
        (⟨1, 3, fun _ _ => false, fun _ _ => 0, fun _ _ => []⟩ :
          ArrowResultModel).row_count ≤ 0) ∧
    duckdb_mb_arrow_get_column_int64
        (some ⟨1, 3, fun _ _ => false, fun _ _ => 0, fun _ _ => []⟩) 7 = [] ∧
    duckdb_mb_arrow_get_column_int32
        (some ⟨1, 3, fun _ _ => false, fun _ _ => 0, fun _ _ => []⟩) 7 = [] := by
  refine ⟨by norm_num, ?_, ?_⟩
  · exact (C8_amended ⟨1, 3, fun _ _ => false, fun _ _ => 0, fun _ _ => []⟩ 7
      (by norm_num)).1
  · exact (C8_amended ⟨1, 3, fun _ _ => false, fun _ _ => 0, fun _ _ => []⟩ 7
      (by norm_num)).2

theorem int32DenseValues_getD (r : ArrowResultModel) (col : Int) (i : Nat)
    (d : Int) (hi : i < r.row_count.toNat) :
    (int32DenseValues r col).getD i d =
      if r.isNull col (Int.ofNat i) then 0
      else i32cast (r.int64At col (Int.ofNat i)) := by
  rw [int32DenseValues]
  exact getD_map_range _ _ i d hi

theorem int64DenseValues_getD (r : ArrowResultModel) (col : Int) (i : Nat)
    (d : Int) (hi : i < r.row_count.toNat) :
    (int64DenseValues r col).getD i d =
      if r.isNull col (Int.ofNat i) then 0
      else r.int64At col (Int.ofNat i) := by
  rw [int64DenseValues]
  exact getD_map_range _ _ i d hi

theorem nullableValidity_getD (r : ArrowResultModel) (col : Int) (i : Nat)
    (d : UInt8) (hi : i < r.row_count.toNat) :
    (nullableValidity r col).getD i d =
      if r.isNull col (Int.ofNat i) then 0 else 1 := by
  rw [nullableValidity]
  exact getD_map_range _ _ i d hi

theorem i32cast_emod (v : Int) : i32cast v % 2 ^ 32 = v % 2 ^ 32 := by
  unfold i32cast
  omega

theorem i32cast_range (v : Int) :
    -2 ^ 31 ≤ i32cast v ∧ i32cast v < 2 ^ 31 := by
  unfold i32cast
  omega

/-- C10: every non-null value extracted by the int32 bulk getter is fetched as
a 64-bit integer and narrowed by the C cast to 32 bits: the element written
agrees with the source value modulo `2^32` and lies in the int32 range
(silent truncation, never a rejection); a null row is written as 0. -/
theorem C10_int32_truncation (r : ArrowResultModel) (col : Int) (i : Nat)
    (hi : i < r.row_count.toNat) :
    (r.isNull col (Int.ofNat i) = false →
        (int32DenseValues r col).getD i 0 =
          i32cast (r.int64At col (Int.ofNat i)) ∧
        i32cast (r.int64At col (Int.ofNat i)) % 2 ^ 32 =
          r.int64At col (Int.ofNat i) % 2 ^ 32 ∧
        -2 ^ 31 ≤ i32cast (r.int64At col (Int.ofNat i)) ∧
        i32cast (r.int64At col (Int.ofNat i)) < 2 ^ 31) ∧
    (r.isNull col (Int.ofNat i) = true →
        (int32DenseValues r col).getD i 0 = 0) := by
  constructor
  · intro hnull
    refine ⟨?_, i32cast_emod _, i32cast_range _⟩
    rw [int32DenseValues_getD r col i 0 hi, hnull]
    simp
  · intro hnull
    rw [int32DenseValues_getD r col i 0 hi, hnull]
    simp

/-- C10 witness: a one-row result whose value `2^35 + 7` exceeds the int32
range is silently truncated by the cast. -/
theorem C10_witness :
    (0 : Nat) <
      (⟨1, 1, fun _ _ => false, fun _ _ => 2 ^ 35 + 7, fun _ _ => []⟩ :
        ArrowResultModel).row_count.toNat ∧
    ((⟨1, 1, fun _ _ => false, fun _ _ => 2 ^ 35 + 7, fun _ _ => []⟩ :
        ArrowResultModel).isNull 0 (Int.ofNat 0) = false →
      (int32DenseValues
          ⟨1, 1, fun _ _ => false, fun _ _ => 2 ^ 35 + 7, fun _ _ => []⟩
          0).getD 0 0 = i32cast (2 ^ 35 + 7) ∧
      i32cast (2 ^ 35 + 7) % 2 ^ 32 = (2 ^ 35 + 7 : Int) % 2 ^ 32 ∧
      -2 ^ 31 ≤ i32cast (2 ^ 35 + 7) ∧ i32cast (2 ^ 35 + 7) < 2 ^ 31) := by
  refine ⟨by decide, ?_⟩
  exact (C10_int32_truncation
    ⟨1, 1, fun _ _ => false, fun _ _ => 2 ^ 35 + 7, fun _ _ => []⟩ 0 0
    (by decide)).1

/-- C6: in the nullable encodings, the trailing validity byte of row `i` is 0
exactly when the source value is null, a null row's value slot holds the zero
placeholder (for both the int32 and the int64 nullable getters), and the
all-null integer column of length 5 encodes to exactly the buffer
`[count = 5][five zero int32 slots][five zero validity bytes]`. -/
theorem C6_nullable_validity (r : ArrowResultModel) (col : Int) (i : Nat)
    (hi : i < r.row_count.toNat) :
    ((nullableValidity r col).getD i 1 = 0 ↔
        r.isNull col (Int.ofNat i) = true) ∧
    (r.isNull col (Int.ofNat i) = true →
        (int32DenseValues r col).getD i 1 = 0 ∧
        (int64DenseValues r col).getD i 1 = 0) ∧
    duckdb_mb_arrow_get_column_int32_nullable
        (some ⟨1, 5, fun _ _ => true, fun _ _ => 0, fun _ _ => []⟩) 0 =
      [5, 0, 0, 0] ++ List.replicate 20 0 ++ List.replicate 5 0 := by
  refine ⟨?_, ?_, by decide⟩
  · rw [nullableValidity_getD r col i 1 hi]
    cases hn : r.isNull col (Int.ofNat i) <;> decide
  · intro hn
    constructor
    · rw [int32DenseValues_getD r col i 1 hi, hn]
      simp
    · rw [int64DenseValues_getD r col i 1 hi, hn]
      simp

/-- C6 witness: the validity/placeholder facts at row 2 of a length-5 all-null
column (the same shape as the spec's end-to-end scenario B). -/
theorem C6_witness :
    (2 : Nat) <
      (⟨1, 5, fun _ _ => true, fun _ _ => 0, fun _ _ => []⟩ :
        ArrowResultModel).row_count.toNat ∧
    ((nullableValidity
        ⟨1, 5, fun _ _ => true, fun _ _ => 0, fun _ _ => []⟩ 0).getD 2 1 = 0 ↔
      (⟨1, 5, fun _ _ => true, fun _ _ => 0, fun _ _ => []⟩ :
        ArrowResultModel).isNull 0 (Int.ofNat 2) = true) := by
  refine ⟨by decide, ?_⟩
  exact (C6_nullable_validity
    ⟨1, 5, fun _ _ => true, fun _ _ => 0, fun _ _ => []⟩ 0 2 (by decide)).1

/-- C4: the native vector writer's inline/out-of-line rule: a string of length
at most 12 is stored inlined with its declared length and its bytes copied
byte-for-byte into the fixed-size inline field; a string longer than 12 bytes
is stored out-of-line with its declared length, a 4-byte prefix equal to the
first 4 source bytes, and a pointer to the caller-supplied bytes. -/
theorem C4_native_writer_strings (s : List UInt8) :
    (s.length ≤ 12 →
        writeStringSlot (some s) = .inlineStr ⟨s.length, inlineField s⟩ ∧
        ∀ j : Nat, j < s.length →
          (inlineField s).getD j none = some (s.getD j 0)) ∧
    (12 < s.length →
        writeStringSlot (some s) = .pointerStr ⟨s.length, s.take 4, s⟩) := by
  constructor
  · intro hle
    constructor
    · simp [writeStringSlot, hle]
    · intro j hj
      have hj12 : j < 12 := lt_of_lt_of_le hj hle
      have hget := getD_map_range 12
        (fun k => if h : k < s.length then some (s.get ⟨k, h⟩)
                  else if k = s.length then some 0
                  else none) j none hj12
      rw [inlineField, hget]
      simp [hj, List.getD_eq_getElem s 0 hj, List.get_eq_getElem]
  · intro hgt
    have hnle : ¬s.length ≤ 12 := not_le.mpr hgt
    have h4 : ¬s.length < 4 := by omega
    simp [writeStringSlot, hnle, h4]

/-- C4 witness: a length-12 string is inlined; a length-13 string goes
out-of-line with prefix equal to its first 4 bytes and a pointer to the
source bytes. -/
theorem C4_witness :
    ([1, 2, 3, 4, 5, 6, 7, 8, 9, 10, 11, 12] : List UInt8).length ≤ 12 ∧
    (12 : Nat) <
      ([1, 2, 3, 4, 5, 6, 7, 8, 9, 10, 11, 12, 13] : List UInt8).length ∧
    writeStringSlot (some [1, 2, 3, 4, 5, 6, 7, 8, 9, 10, 11, 12]) =
      .inlineStr ⟨12, inlineField [1, 2, 3, 4, 5, 6, 7, 8, 9, 10, 11, 12]⟩ ∧
    writeStringSlot (some [1, 2, 3, 4, 5, 6, 7, 8, 9, 10, 11, 12, 13]) =
      .pointerStr
        ⟨13, ([1, 2, 3, 4, 5, 6, 7, 8, 9, 10, 11, 12, 13] : List UInt8).take 4,
          [1, 2, 3, 4, 5, 6, 7, 8, 9, 10, 11, 12, 13]⟩ ∧
    ([1, 2, 3, 4, 5, 6, 7, 8, 9, 10, 11, 12, 13] : List UInt8).take 4 =
      [1, 2, 3, 4] := by
  refine ⟨by decide, by decide, ?_, ?_, by decide⟩
  · exact ((C4_native_writer_strings
      [1, 2, 3, 4, 5, 6, 7, 8, 9, 10, 11, 12]).1 (by decide)).1
  · exact (C4_native_writer_strings
      [1, 2, 3, 4, 5, 6, 7, 8, 9, 10, 11, 12, 13]).2 (by decide)

theorem columnData_getD_eq (cols colsB : List ColumnVec)
    (h : cols.map ColumnVec.data = colsB.map ColumnVec.data) (n : Nat) :
    (cols.getD n ⟨none, none⟩).data = (colsB.getD n ⟨none, none⟩).data := by
  have hlen : cols.length = colsB.length := by
    have hl := congrArg List.length h
    simpa using hl
  by_cases hn : n < cols.length
  · have hnB : n < colsB.length := hlen ▸ hn
    rw [List.getD_eq_getElem _ _ hn, List.getD_eq_getElem _ _ hnB]
    have h1 : (cols.map ColumnVec.data).get ⟨n, by simpa using hn⟩ =
        (colsB.map ColumnVec.data).get ⟨n, by simpa using hnB⟩ := by
      simp [h]
    simpa using h1
  · have hnB : ¬n < colsB.length := hlen ▸ hn
    rw [List.getD_eq_default _ _ (not_lt.mp hn),
      List.getD_eq_default _ _ (not_lt.mp hnB)]

/-- C1: refutation of "the decode operation never reads or interprets the data
slot of a null row".  A one-column integer chunk whose sole row is null (the
validity bit is 0, and `duckdb_mb_chunk_is_null` answers 1) still has its data
slot read and interpreted by `duckdb_mb_chunk_value`: the call returns the
rendering of the slot's contents, and two chunks identical except for that
null row's slot contents decode to different outputs. -/
theorem C1_counterexample :
    duckdb_mb_chunk_is_null
        (some ⟨1, [⟨some (fun _ => false), some (fun _ => Slot.sI32 7)⟩],
          ⟨[DuckType.integer], 1⟩⟩) 0 0 = 1 ∧
    duckdb_mb_chunk_value
        (some ⟨1, [⟨some (fun _ => false), some (fun _ => Slot.sI32 7)⟩],
          ⟨[DuckType.integer], 1⟩⟩) 0 0 =
      (duckdb_mb_value_to_bytes (DuckValue.vInt32 7), none) ∧
    duckdb_mb_chunk_value
        (some ⟨1, [⟨some (fun _ => false), some (fun _ => Slot.sI32 7)⟩],
          ⟨[DuckType.integer], 1⟩⟩) 0 0 ≠
      duckdb_mb_chunk_value
        (some ⟨1, [⟨some (fun _ => false), some (fun _ => Slot.sI32 8)⟩],
          ⟨[DuckType.integer], 1⟩⟩) 0 0 := by
  refine ⟨rfl, rfl, ?_⟩
  decide

/-- C1 amended: `duckdb_mb_chunk_is_null` does answer 1 for every in-range row
whose validity bit is 0, but `duckdb_mb_chunk_value` performs no validity
check at all — its output depends only on the column data arrays, not on the
validity bitmaps, so the data slot is read and interpreted even for null rows
and the null-before-value discipline is the caller's responsibility. -/
theorem C1_amended :
    (∀ (sz : Nat) (cols colsB : List ColumnVec) (st : StreamModel)
        (col row : Int),
        cols.map ColumnVec.data = colsB.map ColumnVec.data →
        duckdb_mb_chunk_value (some ⟨sz, cols, st⟩) col row =
          duckdb_mb_chunk_value (some ⟨sz, colsB, st⟩) col row) ∧
    (∀ (c : Chunk) (col row : Int) (valid : Nat → Bool),
        ¬(col < 0 ∨ c.stream.column_count ≤ col ∨ row < 0) →
        (chunkGetVector c col).validity = some valid →
        valid row.toNat = false →
        duckdb_mb_chunk_is_null (some c) col row = 1) := by
  constructor
  · intro sz cols colsB st col row h
    show duckdb_mb_chunk_value (some ⟨sz, cols, st⟩) col row =
      duckdb_mb_chunk_value (some ⟨sz, colsB, st⟩) col row
    rw [duckdb_mb_chunk_value, duckdb_mb_chunk_value]
    have hdata : (chunkGetVector ⟨sz, cols, st⟩ col).data =
        (chunkGetVector ⟨sz, colsB, st⟩ col).data :=
      columnData_getD_eq cols colsB h col.toNat
    by_cases hg : col < 0 ∨ st.column_count ≤ col ∨ row < 0
    · rw [if_pos hg, if_pos hg]
    · rw [if_neg hg, if_neg hg, hdata]
  · intro c col row valid hg hv hbit
    rw [duckdb_mb_chunk_is_null, if_neg hg, hv]
    simp [hbit]

/-- C1 amended witness: the validity-independence equation at two concrete
one-column chunks that differ only in validity, and the is-null answer at a
concrete null row. -/
theorem C1_witness :
    ([⟨some (fun _ => false), some (fun _ => Slot.sI32 7)⟩] :
        List ColumnVec).map ColumnVec.data =
      ([⟨some (fun _ => true), some (fun _ => Slot.sI32 7)⟩] :
        List ColumnVec).map ColumnVec.data ∧
    duckdb_mb_chunk_value
        (some ⟨1, [⟨some (fun _ => false), some (fun _ => Slot.sI32 7)⟩],
          ⟨[DuckType.integer], 1⟩⟩) 0 0 =
      duckdb_mb_chunk_value
        (some ⟨1, [⟨some (fun _ => true), some (fun _ => Slot.sI32 7)⟩],
          ⟨[DuckType.integer], 1⟩⟩) 0 0 ∧
    duckdb_mb_chunk_is_null
        (some ⟨1, [⟨some (fun _ => false), some (fun _ => Slot.sI32 7)⟩],
          ⟨[DuckType.integer], 1⟩⟩) 0 0 = 1 := by
  refine ⟨rfl, ?_, ?_⟩
  · exact C1_amended.1 1
      [⟨some (fun _ => false), some (fun _ => Slot.sI32 7)⟩]
      [⟨some (fun _ => true), some (fun _ => Slot.sI32 7)⟩]
      ⟨[DuckType.integer], 1⟩ 0 0 rfl
  · exact C1_amended.2
      ⟨1, [⟨some (fun _ => false), some (fun _ => Slot.sI32 7)⟩],
        ⟨[DuckType.integer], 1⟩⟩ 0 0 (fun _ => false) (by decide) rfl rfl

/-- C2: refutation of "a row_index greater than or equal to the chunk's row
count is rejected, not dereferenced".  A one-row integer chunk queried at row
index 3 is not rejected: `duckdb_mb_chunk_value` returns the rendering of the
data slot at index 3 (so the slot beyond the row count is dereferenced and
interpreted), and `duckdb_mb_chunk_is_null` likewise consults the validity
bit at index 3 instead of failing. -/
theorem C2_counterexample :
    duckdb_mb_chunk_row_count
        (some ⟨1, [⟨some (fun _ => true),
          some (fun n => if n = 3 then Slot.sI32 9 else Slot.sI32 0)⟩],
          ⟨[DuckType.integer], 1⟩⟩) = 1 ∧
    duckdb_mb_chunk_value
        (some ⟨1, [⟨some (fun _ => true),
          some (fun n => if n = 3 then Slot.sI32 9 else Slot.sI32 0)⟩],
          ⟨[DuckType.integer], 1⟩⟩) 0 3 =
      (duckdb_mb_value_to_bytes (DuckValue.vInt32 9), none) ∧
    duckdb_mb_chunk_value
        (some ⟨1, [⟨some (fun _ => true),
          some (fun n => if n = 3 then Slot.sI32 9 else Slot.sI32 0)⟩],
          ⟨[DuckType.integer], 1⟩⟩) 0 3 ≠ ([], none) ∧
    duckdb_mb_chunk_is_null
        (some ⟨1, [⟨some (fun _ => true),
          some (fun n => if n = 3 then Slot.sI32 9 else Slot.sI32 0)⟩],
          ⟨[DuckType.integer], 1⟩⟩) 0 3 = 0 := by
  refine ⟨rfl, rfl, ?_, rfl⟩
  decide

/-- C2 amended: a negative row index or an out-of-range column index is
rejected with the benign sentinels (empty bytes with no error-slot write for
`duckdb_mb_chunk_value`, answer 1 for `duckdb_mb_chunk_is_null` — no
IndexOutOfRange error exists at this layer), but the row index is never
compared against the chunk's row count: both operations are independent of
the chunk's size field, so any non-negative row index reaches the data
arrays. -/
theorem C2_amended :
    (∀ (c : Chunk) (col row : Int),
        (col < 0 ∨ c.stream.column_count ≤ col ∨ row < 0) →
        duckdb_mb_chunk_value (some c) col row = ([], none) ∧
        duckdb_mb_chunk_is_null (some c) col row = 1) ∧
    (∀ (sz szB : Nat) (cols : List ColumnVec) (st : StreamModel)
        (col row : Int),
        duckdb_mb_chunk_value (some ⟨sz, cols, st⟩) col row =
          duckdb_mb_chunk_value (some ⟨szB, cols, st⟩) col row ∧
        duckdb_mb_chunk_is_null (some ⟨sz, cols, st⟩) col row =
          duckdb_mb_chunk_is_null (some ⟨szB, cols, st⟩) col row) := by
  constructor
  · intro c col row hg
    constructor
    · rw [duckdb_mb_chunk_value, if_pos hg]
    · rw [duckdb_mb_chunk_is_null, if_pos hg]
  · intro sz szB cols st col row
    exact ⟨rfl, rfl⟩

/-- C2 amended witness: the rejection sentinels at a negative row index, and
the size-independence equation between a 1-row and a 2048-row chunk handle. -/
theorem C2_witness :
    ((0 : Int) < 0 ∨
        (⟨1, [], ⟨[DuckType.integer], 1⟩⟩ : Chunk).stream.column_count ≤ 0 ∨
        (-1 : Int) < 0) ∧
    duckdb_mb_chunk_value
        (some ⟨1, [], ⟨[DuckType.integer], 1⟩⟩) 0 (-1) = ([], none) ∧
    duckdb_mb_chunk_is_null
        (some ⟨1, [], ⟨[DuckType.integer], 1⟩⟩) 0 (-1) = 1 ∧
    duckdb_mb_chunk_value
        (some ⟨1, [⟨none, some (fun _ => Slot.sI32 5)⟩],
          ⟨[DuckType.integer], 1⟩⟩) 0 3 =
      duckdb_mb_chunk_value
        (some ⟨2048, [⟨none, some (fun _ => Slot.sI32 5)⟩],
          ⟨[DuckType.integer], 1⟩⟩) 0 3 := by
  refine ⟨by norm_num, ?_, ?_, ?_⟩
  · exact ((C2_amended.1 ⟨1, [], ⟨[DuckType.integer], 1⟩⟩ 0 (-1))
      (by norm_num)).1
  · exact ((C2_amended.1 ⟨1, [], ⟨[DuckType.integer], 1⟩⟩ 0 (-1))
      (by norm_num)).2
  · exact (C2_amended.2 1 2048 [⟨none, some (fun _ => Slot.sI32 5)⟩]
      ⟨[DuckType.integer], 1⟩ 0 3).1

theorem cStrTake_of_not_mem (s : List UInt8) (h : (0 : UInt8) ∉ s) :
    cStrTake s = s := by
  induction s with
  | nil => rfl
  | cons b t ih =>
    have hb : b ≠ 0 := fun hb => h (hb ▸ List.mem_cons_self b t)
    have ht : (0 : UInt8) ∉ t := fun hm => h (List.mem_cons_of_mem b hm)
    simp [cStrTake, hb, ih ht]

theorem cStrTake_length (s : List UInt8) :
    (cStrTake s).length = cStrLen s := by
  induction s with
  | nil => rfl
  | cons b t ih =>
    by_cases hb : b = 0
    · simp [cStrTake, cStrLen, hb]
    · simp [cStrTake, cStrLen, hb, ih]

theorem stringTotalLen_eq_payload_length (rows : List (Option (List UInt8)))
    (h : ∀ x ∈ rows, x ≠ none) :
    stringTotalLen rows = (stringPayload rows).length := by
  induction rows with
  | nil => rfl
  | cons x rest ih =>
    cases x with
    | none => exact absurd rfl (h none (List.mem_cons_self none rest))
    | some s =>
      have hrest := ih (fun y hy => h y (List.mem_cons_of_mem _ hy))
      simp [stringTotalLen, stringPayload, hrest, cStrTake_length]
      omega

theorem splitNulGo_append (s : List UInt8) (h : (0 : UInt8) ∉ s) :
    ∀ (acc rest : List UInt8),
      splitNulGo acc (s ++ 0 :: rest) =
        (acc.reverse ++ s) :: splitNulGo [] rest := by
  induction s with
  | nil => intro acc rest; simp [splitNulGo]
  | cons b t ih =>
    intro acc rest
    have hb : b ≠ 0 := fun hb => h (hb ▸ List.mem_cons_self b t)
    have ht : (0 : UInt8) ∉ t := fun hm => h (List.mem_cons_of_mem b hm)
    have step : splitNulGo acc ((b :: t) ++ 0 :: rest) =
        splitNulGo (b :: acc) (t ++ 0 :: rest) := by
      simp [splitNulGo, hb]
    rw [step, ih ht (b :: acc) rest]
    simp

theorem splitNul_stringPayload (strs : List (List UInt8))
    (h : ∀ s ∈ strs, (0 : UInt8) ∉ s) :
    splitNul (stringPayload (strs.map some)) = strs := by
  induction strs with
  | nil => rfl
  | cons s rest ih =>
    have hs : (0 : UInt8) ∉ s := h s (List.mem_cons_self s rest)
    have hrest := ih (fun u hu => h u (List.mem_cons_of_mem _ hu))
    have hshape : stringPayload ((s :: rest).map some) =
        s ++ 0 :: stringPayload (rest.map some) := by
      simp [stringPayload, cStrTake_of_not_mem s hs]
    rw [splitNul, hshape, splitNulGo_append s hs [] _]
    simpa [splitNul] using congrArg (List.cons s) hrest

/-- C5: dense string-column encoding.  For a materialized result whose
selected column holds, over all rows, non-null strings free of embedded NUL
bytes, the produced buffer is exactly
`[u32 count][u32 total_bytes][NUL-terminated strings concatenated in row
order]`, the declared `total_bytes` equals the number of payload bytes
actually written, and scanning the payload for NUL terminators recovers
exactly `count` substrings equal to the original strings. -/
theorem C5_string_dense (r : ArrowResultModel) (col : Int)
    (strs : List (List UInt8))
    (hcol : ¬(col < 0 ∨ r.column_count ≤ col ∨ r.row_count ≤ 0))
    (hrows : stringColumnRows r col = strs.map some)
    (hnul : ∀ s ∈ strs, (0 : UInt8) ∉ s) :
    duckdb_mb_arrow_get_column_string (some r) col =
      i32le r.row_count ++
        i32le (Int.ofNat (stringTotalLen (stringColumnRows r col))) ++
        stringPayload (stringColumnRows r col) ∧
    stringTotalLen (stringColumnRows r col) =
      (stringPayload (stringColumnRows r col)).length ∧
    splitNul (stringPayload (stringColumnRows r col)) = strs ∧
    strs.length = r.row_count.toNat := by
  refine ⟨?_, ?_, ?_, ?_⟩
  · rw [duckdb_mb_arrow_get_column_string, if_neg hcol]
  · apply stringTotalLen_eq_payload_length
    rw [hrows]
    intro x hx
    rw [List.mem_map] at hx
    obtain ⟨s, _, hEq⟩ := hx
    rw [← hEq]
    exact Option.some_ne_none s
  · rw [hrows]
    exact splitNul_stringPayload strs hnul
  · have hlen := congrArg List.length hrows
    simpa [stringColumnRows] using hlen.symm

/-- C5 witness: a two-row column with strings "ab" and "c": the buffer is the
two headers followed by `ab\0c\0`, the declared byte total is 5, and the NUL
scan recovers the two original strings. -/
theorem C5_witness :
    (¬((0 : Int) < 0 ∨
        (⟨1, 2, fun _ _ => false, fun _ _ => 0,
          fun _ i => if i = 0 then [97, 98] else [99]⟩ :
          ArrowResultModel).column_count ≤ 0 ∨
        (⟨1, 2, fun _ _ => false, fun _ _ => 0,
          fun _ i => if i = 0 then [97, 98] else [99]⟩ :
          ArrowResultModel).row_count ≤ 0)) ∧
    stringColumnRows
        ⟨1, 2, fun _ _ => false, fun _ _ => 0,
          fun _ i => if i = 0 then [97, 98] else [99]⟩ 0 =
      ([[97, 98], [99]] : List (List UInt8)).map some ∧
    duckdb_mb_arrow_get_column_string
        (some ⟨1, 2, fun _ _ => false, fun _ _ => 0,
          fun _ i => if i = 0 then [97, 98] else [99]⟩) 0 =
      [2, 0, 0, 0] ++ [5, 0, 0, 0] ++ [97, 98, 0, 99, 0] ∧
    splitNul [97, 98, 0, 99, 0] = [[97, 98], [99]] := by
  refine ⟨by decide, by decide, ?_, by decide⟩
  have h := (C5_string_dense
    ⟨1, 2, fun _ _ => false, fun _ _ => 0,
      fun _ i => if i = 0 then [97, 98] else [99]⟩ 0 [[97, 98], [99]]
    (by decide) (by decide) (by decide)).1
  rw [h]
  decide

end DuckDBMB
